import Mathlib

/-!
Verification of the OpenBlock block-building engine (`src/block-engine`).

This file gives a shallow embedding of the engine's core data model and
operations — bundles, the per-slot auction window, the bundle pool, the
simulation admission filter, the block assembler, and the mock validator —
translated from the Rust sources, together with theorems settling the
specification claims about them.

Modelling conventions:
* `u64` and `usize` values are modelled as `Nat`.  All code paths relevant
  to the claims either bound their accumulators before adding (the packer)
  or are pure aggregates whose intended reading is arithmetic, so wrap-around
  is not modelled.
* A serialized Solana transaction is modelled as its canonical byte string
  (`List Nat`); the engine treats transactions opaquely (clone, equality,
  serialize).
* A `Uuid` bundle id is modelled as its 128-bit numeric value (`Nat`);
  `Uuid` comparison is the numeric comparison of that value.
* Wall-clock instants are explicit `Nat` millisecond parameters; functions
  reading the clock take the current instant as an argument.
* `tokio` channels, locks and logging are irrelevant to the claims and are
  erased; the broadcast event bus is modelled by returning the list of
  events a call publishes.
-/

namespace OpenBlock

/-- A serialized transaction: its canonical byte representation. -/
abbrev Tx := List Nat

/-- A 256-bit hash value, as its 32-byte representation. -/
abbrev Hash := List Nat

/-- `bundle.rs`: an atomic group of transactions with a tip.
`id` is the 128-bit UUID value; `created_at` a wall-clock stamp. -/
structure Bundle where
  id : Nat
  transactions : List Tx
  tip_lamports : Nat
  created_at : Nat
  searcher_pubkey : String
deriving DecidableEq, Repr

/-- `bundle.rs`: `BundleError`. -/
inductive BundleError where
  | EmptyBundle : BundleError
  | TooManyTransactions : BundleError
  | SimulationFailed : String → BundleError
deriving DecidableEq, Repr

/-- The `thiserror` display strings of `BundleError`. -/
def BundleError.toMessage : BundleError → String
  | .EmptyBundle => "Bundle cannot be empty"
  | .TooManyTransactions => "Bundle contains too many transactions (max 5)"
  | .SimulationFailed d => "Simulation failed: " ++ d

/-- `Bundle::validate`: reject empty bundles and bundles with more than
5 transactions. -/
def Bundle.validate (b : Bundle) : Except BundleError Unit :=
  if b.transactions.isEmpty then .error .EmptyBundle
  else if b.transactions.length > 5 then .error .TooManyTransactions
  else .ok ()

/-! ## Auction window (`auction.rs`, `AuctionWindow`) -/

/-- `auction.rs`: the time-boxed auction window.  `start_time` is the
creation instant in milliseconds. -/
structure AuctionWindow where
  window_id : Nat
  bundles : List Bundle
  start_time : Nat
  duration_ms : Nat
  max_bundles_for_block : Nat
deriving DecidableEq, Repr

/-- `AuctionWindow::is_window_open`: `start_time.elapsed().as_millis() <
duration_ms`, at current instant `now` (monotonic, `now ≥ start_time`). -/
def AuctionWindow.is_window_open (w : AuctionWindow) (now : Nat) : Bool :=
  now - w.start_time < w.duration_ms

/-- `AuctionWindow::try_add_bundle`: append while the window is open and
return `Ok(true)`; on a closed window drop silently and return `Ok(false)`.
Returns the `Result` together with the updated window. -/
def AuctionWindow.try_add_bundle (w : AuctionWindow) (now : Nat) (b : Bundle) :
    Except String Bool × AuctionWindow :=
  if w.is_window_open now then
    (Except.ok true, { w with bundles := w.bundles ++ [b] })
  else
    (Except.ok false, w)

/-- The comparator of `AuctionWindow::rank_bundles_by_priority` as a
`Bool`-valued "less or equal": `a` sorts no later than `b` iff
`b.tip_lamports.cmp(&a.tip_lamports)` then `a.id.cmp(&b.id)` is not
`Greater`. -/
def bundle_le (a b : Bundle) : Bool :=
  decide (b.tip_lamports < a.tip_lamports ∨
    (a.tip_lamports = b.tip_lamports ∧ a.id ≤ b.id))

/-- `AuctionWindow::rank_bundles_by_priority`: stable-sort the stored
`bundles` vector in place by tip descending, ties by id ascending, and
return a clone of it.  Rust's `Vec::sort_by` is a stable merge sort, as is
`List.mergeSort`. -/
def AuctionWindow.rank_bundles_by_priority (w : AuctionWindow) :
    List Bundle × AuctionWindow :=
  let sorted := w.bundles.mergeSort bundle_le
  (sorted, { w with bundles := sorted })

/-- `AuctionWindow::select_and_log_winners`: rank, then take the first
`max_bundles_for_block` of the ranked sequence. -/
def AuctionWindow.select_and_log_winners (w : AuctionWindow) :
    List Bundle × AuctionWindow :=
  let r := w.rank_bundles_by_priority
  (r.1.take w.max_bundles_for_block, r.2)

/-! ## Theorems for claim C3 -/

/-- C3: while the elapsed time since `start_time` is strictly below
`duration_ms` the window is open and `try_add_bundle` appends the bundle
and returns `Ok(true)`; from the first instant the elapsed time reaches
`duration_ms` the window is closed, `try_add_bundle` returns `Ok(false)`
(never an error) leaving the collected bundles unchanged; and a window
closed at one instant is still closed at every later instant. -/
theorem auction_window_cutoff_c3 (w : AuctionWindow) (b : Bundle) (n₁ n₂ : Nat) :
    (n₁ - w.start_time < w.duration_ms →
      w.is_window_open n₁ = true ∧
      w.try_add_bundle n₁ b =
        (Except.ok true, { w with bundles := w.bundles ++ [b] })) ∧
    (w.duration_ms ≤ n₁ - w.start_time →
      w.is_window_open n₁ = false ∧
      w.try_add_bundle n₁ b = (Except.ok false, w)) ∧
    (n₁ ≤ n₂ → w.is_window_open n₁ = false → w.is_window_open n₂ = false) := by
  refine ⟨fun h => ?_, fun h => ?_, fun h12 h1 => ?_⟩
  · have ho : w.is_window_open n₁ = true := by
      simp [AuctionWindow.is_window_open, h]
    exact ⟨ho, by simp [AuctionWindow.try_add_bundle, ho]⟩
  · have hc : w.is_window_open n₁ = false := by
      simp [AuctionWindow.is_window_open]
      omega
    exact ⟨hc, by simp [AuctionWindow.try_add_bundle, hc]⟩
  · simp [AuctionWindow.is_window_open] at h1 ⊢
    omega

/-- Witness for `auction_window_cutoff_c3` at a concrete window
(duration 50 ms, started at 0) and bundle, at instants 10 and 60. -/
theorem auction_window_cutoff_c3_witness :
    (AuctionWindow.try_add_bundle ⟨1, [], 0, 50, 5⟩ 10 ⟨9, [[0]], 7, 0, "s"⟩ =
      (Except.ok true, ⟨1, [⟨9, [[0]], 7, 0, "s"⟩], 0, 50, 5⟩)) ∧
    (AuctionWindow.try_add_bundle ⟨1, [], 0, 50, 5⟩ 60 ⟨9, [[0]], 7, 0, "s"⟩ =
      (Except.ok false, ⟨1, [], 0, 50, 5⟩)) ∧
    AuctionWindow.is_window_open ⟨1, [], 0, 50, 5⟩ 60 = false :=
  ⟨((auction_window_cutoff_c3 ⟨1, [], 0, 50, 5⟩ ⟨9, [[0]], 7, 0, "s"⟩ 10 60).1
      (by decide)).2,
   ((auction_window_cutoff_c3 ⟨1, [], 0, 50, 5⟩ ⟨9, [[0]], 7, 0, "s"⟩ 60 60).2.1
      (by decide)).2,
   ((auction_window_cutoff_c3 ⟨1, [], 0, 50, 5⟩ ⟨9, [[0]], 7, 0, "s"⟩ 60 60).2.1
      (by decide)).1⟩

/-! ## Ranking order facts -/

/-- `bundle_le` is total. -/
theorem bundle_le_total (a b : Bundle) : bundle_le a b || bundle_le b a := by
  simp only [bundle_le, Bool.or_eq_true, decide_eq_true_eq]
  omega

/-- `bundle_le` is transitive. -/
theorem bundle_le_trans (a b c : Bundle) :
    bundle_le a b → bundle_le b c → bundle_le a c := by
  simp only [bundle_le, decide_eq_true_eq]
  omega

/-- On a list of bundles with pairwise-distinct ids, `bundle_le` is
antisymmetric. -/
theorem bundle_le_antisymm_of_nodup {l : List Bundle}
    (h : (l.map Bundle.id).Nodup) :
    ∀ a ∈ l, ∀ b ∈ l, bundle_le a b = true → bundle_le b a = true → a = b := by
  intro a ha b hb hab hba
  simp only [bundle_le, decide_eq_true_eq] at hab hba
  exact List.inj_on_of_nodup_map h ha hb (by omega)

/-- Two sorted permutations of each other are equal, assuming the relation
is antisymmetric on the elements of the lists. -/
theorem sorted_perm_eq {α : Type} {le : α → α → Bool} :
    ∀ (l₁ l₂ : List α), l₁.Perm l₂ →
      (∀ a ∈ l₁, ∀ b ∈ l₁, le a b = true → le b a = true → a = b) →
      l₁.Pairwise (fun a b => le a b = true) →
      l₂.Pairwise (fun a b => le a b = true) → l₁ = l₂
  | [], l₂, hp, _, _, _ => (hp.symm.eq_nil).symm
  | a :: t₁, [], hp, _, _, _ => absurd hp.eq_nil (by simp)
  | a :: t₁, b :: t₂, hp, hanti, hs₁, hs₂ => by
    obtain ⟨ha1, hs₁t⟩ := List.pairwise_cons.mp hs₁
    obtain ⟨hb2, hs₂t⟩ := List.pairwise_cons.mp hs₂
    have hab : a = b := by
      by_contra hne
      have hbmem : b ∈ a :: t₁ := hp.mem_iff.mpr (List.mem_cons_self b t₂)
      have hamem : a ∈ b :: t₂ := hp.mem_iff.mp (List.mem_cons_self a t₁)
      have hbt : b ∈ t₁ := by
        cases List.mem_cons.mp hbmem with
        | inl h => exact absurd h.symm hne
        | inr h => exact h
      have hat : a ∈ t₂ := by
        cases List.mem_cons.mp hamem with
        | inl h => exact absurd h hne
        | inr h => exact h
      exact hne (hanti a (List.mem_cons_self a t₁) b hbmem (ha1 b hbt) (hb2 a hat))
    subst hab
    have htp : t₁.Perm t₂ := hp.cons_inv
    have hanti' : ∀ x ∈ t₁, ∀ y ∈ t₁, le x y = true → le y x = true → x = y :=
      fun x hx y hy => hanti x (List.mem_cons_of_mem a hx) y (List.mem_cons_of_mem a hy)
    rw [sorted_perm_eq t₁ t₂ htp hanti' hs₁t hs₂t]

/-! ## Theorems for claim C1 -/

/-- C1: the winners of `select_and_log_winners` are the first
`max_bundles_for_block` elements of the collected bundles stably sorted by
tip descending with ties broken by id ascending; that sorted sequence is a
permutation of the collected bundles and is sorted in the stated order;
two windows holding the same multiset of bundles (with the spec's
globally-unique ids) and the same cutoff produce identical winner
sequences; the winners contain no duplicates; and every winner was among
the collected bundles. -/
theorem auction_winners_c1 (w₁ w₂ : AuctionWindow) :
    (w₁.select_and_log_winners.1 =
      (w₁.bundles.mergeSort bundle_le).take w₁.max_bundles_for_block) ∧
    (w₁.bundles.mergeSort bundle_le).Perm w₁.bundles ∧
    (w₁.bundles.mergeSort bundle_le).Pairwise (fun a b =>
      b.tip_lamports < a.tip_lamports ∨
        (a.tip_lamports = b.tip_lamports ∧ a.id ≤ b.id)) ∧
    ((w₁.bundles.map Bundle.id).Nodup → w₁.bundles.Perm w₂.bundles →
      w₁.max_bundles_for_block = w₂.max_bundles_for_block →
      w₁.select_and_log_winners.1 = w₂.select_and_log_winners.1) ∧
    ((w₁.bundles.map Bundle.id).Nodup → w₁.select_and_log_winners.1.Nodup) ∧
    (∀ b ∈ w₁.select_and_log_winners.1, b ∈ w₁.bundles) := by
  have hsorted : ∀ l : List Bundle,
      (l.mergeSort bundle_le).Pairwise (fun a b => bundle_le a b = true) :=
    fun l => List.sorted_mergeSort
      (fun a b c => bundle_le_trans a b c) bundle_le_total l
  refine ⟨rfl, List.mergeSort_perm w₁.bundles bundle_le, ?_, ?_, ?_, ?_⟩
  · exact (hsorted w₁.bundles).imp (by
      intro a b h
      simpa only [bundle_le, decide_eq_true_eq] using h)
  · intro hnd hp hk
    have hperm : (w₁.bundles.mergeSort bundle_le).Perm (w₂.bundles.mergeSort bundle_le) :=
      (List.mergeSort_perm w₁.bundles bundle_le).trans
        (hp.trans (List.mergeSort_perm w₂.bundles bundle_le).symm)
    have hanti : ∀ a ∈ w₁.bundles.mergeSort bundle_le,
        ∀ b ∈ w₁.bundles.mergeSort bundle_le,
        bundle_le a b = true → bundle_le b a = true → a = b :=
      fun a ha b hb => bundle_le_antisymm_of_nodup hnd a (List.mem_mergeSort.mp ha)
        b (List.mem_mergeSort.mp hb)
    have heq : w₁.bundles.mergeSort bundle_le = w₂.bundles.mergeSort bundle_le :=
      sorted_perm_eq _ _ hperm hanti (hsorted w₁.bundles) (hsorted w₂.bundles)
    simp only [AuctionWindow.select_and_log_winners,
      AuctionWindow.rank_bundles_by_priority, heq, hk]
  · intro hnd
    have hndb : w₁.bundles.Nodup := hnd.of_map
    have : (w₁.bundles.mergeSort bundle_le).Nodup :=
      (List.mergeSort_perm w₁.bundles bundle_le).nodup_iff.mpr hndb
    exact this.sublist (List.take_sublist _ _)
  · intro b hb
    have : b ∈ w₁.bundles.mergeSort bundle_le :=
      (List.take_sublist _ _).mem hb
    exact List.mem_mergeSort.mp this

/-- A sample bundle used by concrete witnesses. -/
def sampleBundleA : Bundle := ⟨1, [[1]], 100, 0, "a"⟩

/-- A second sample bundle with a distinct id and a higher tip. -/
def sampleBundleB : Bundle := ⟨2, [[2]], 200, 0, "b"⟩

/-- A sample auction window holding the two sample bundles. -/
def sampleWindowA : AuctionWindow := ⟨1, [sampleBundleA, sampleBundleB], 0, 200, 2⟩

/-- The same window contents in the opposite arrival order. -/
def sampleWindowB : AuctionWindow := ⟨1, [sampleBundleB, sampleBundleA], 0, 200, 2⟩

/-- Witness for `auction_winners_c1`: the two sample windows hold the same
multiset of bundles and produce identical, duplicate-free winner lists. -/
theorem auction_winners_c1_witness :
    sampleWindowA.select_and_log_winners.1 = sampleWindowB.select_and_log_winners.1 ∧
    sampleWindowA.select_and_log_winners.1.Nodup :=
  ⟨(auction_winners_c1 sampleWindowA sampleWindowB).2.2.2.1 (by decide)
      (by decide) rfl,
   (auction_winners_c1 sampleWindowA sampleWindowA).2.2.2.2.1 (by decide)⟩

/-! ## Theorems for claim C8 -/

/-- C8 as stated is false: `rank_bundles_by_priority` sorts the stored
`bundles` vector in place (`self.bundles.sort_by(..)`), so after the call
the stored field of this concrete window is no longer in arrival order. -/
theorem rank_in_place_c8_counterexample :
    ((⟨1, [⟨1, [], 100, 0, "a"⟩, ⟨2, [], 200, 0, "b"⟩], 0, 200, 2⟩ :
        AuctionWindow).rank_bundles_by_priority).2.bundles ≠
      [⟨1, [], 100, 0, "a"⟩, ⟨2, [], 200, 0, "b"⟩] := by
  intro h
  have hs : (([⟨1, [], 100, 0, "a"⟩, ⟨2, [], 200, 0, "b"⟩] :
      List Bundle).mergeSort bundle_le).Pairwise (fun a b => bundle_le a b = true) :=
    List.sorted_mergeSort (fun a b c => bundle_le_trans a b c) bundle_le_total _
  have h' : (([⟨1, [], 100, 0, "a"⟩, ⟨2, [], 200, 0, "b"⟩] :
      List Bundle).mergeSort bundle_le) =
      [⟨1, [], 100, 0, "a"⟩, ⟨2, [], 200, 0, "b"⟩] := h
  rw [h'] at hs
  have := (List.pairwise_cons.mp hs).1 ⟨2, [], 200, 0, "b"⟩ (by simp)
  simp only [bundle_le, decide_eq_true_eq] at this
  omega

/-- C8 amended: `rank_bundles_by_priority` returns the collected bundles
sorted by tip descending, ties by id ascending, and overwrites the stored
`bundles` field with that same ranked sequence — so the stored field after
the call is a permutation of the collected bundles in ranked order, not in
general the arrival order; all other window fields are untouched. -/
theorem rank_in_place_c8 (w : AuctionWindow) :
    (w.rank_bundles_by_priority.1 = w.bundles.mergeSort bundle_le) ∧
    (w.rank_bundles_by_priority.2.bundles = w.rank_bundles_by_priority.1) ∧
    (w.rank_bundles_by_priority.2.bundles.Perm w.bundles) ∧
    (w.rank_bundles_by_priority.1.Pairwise (fun a b =>
      b.tip_lamports < a.tip_lamports ∨
        (a.tip_lamports = b.tip_lamports ∧ a.id ≤ b.id))) ∧
    (w.rank_bundles_by_priority.2.window_id = w.window_id ∧
      w.rank_bundles_by_priority.2.start_time = w.start_time ∧
      w.rank_bundles_by_priority.2.duration_ms = w.duration_ms ∧
      w.rank_bundles_by_priority.2.max_bundles_for_block = w.max_bundles_for_block) :=
  ⟨rfl, rfl, List.mergeSort_perm _ _,
   (List.sorted_mergeSort (fun a b c => bundle_le_trans a b c) bundle_le_total
      w.bundles).imp (by
        intro a b h
        simpa only [bundle_le, decide_eq_true_eq] using h),
   rfl, rfl, rfl, rfl⟩

/-! ## Block assembler (`block_assembler.rs`) -/

/-- `block_assembler.rs`: `BlockTemplate`. -/
structure BlockTemplate where
  slot : Nat
  parent_hash : Hash
  leader_pubkey : String
  max_transactions : Nat
  max_compute_units : Nat
deriving DecidableEq, Repr

/-- `block_assembler.rs`: `Block`. -/
structure Block where
  slot : Nat
  parent_hash : Hash
  blockhash : Hash
  transactions : List Tx
  bundles : List Bundle
  timestamp : Nat
  leader_pubkey : String
  total_fees : Nat
  total_tips : Nat
deriving DecidableEq, Repr

/-- `BlockAssembler::estimate_bundle_compute_units`: 5000 compute units per
transaction. -/
def estimate_bundle_compute_units (b : Bundle) : Nat :=
  b.transactions.length * 5000

/-- The running state of the packing loop of
`BlockAssembler::assemble_block`. -/
structure PackState where
  all_transactions : List Tx
  included_bundles : List Bundle
  total_tips : Nat
  total_compute_units : Nat
deriving DecidableEq, Repr

/-- The packing loop of `BlockAssembler::assemble_block`: walk the winners
in order; skip (with a warn log) any bundle whose transactions or compute
units would exceed a limit, and keep walking; otherwise append its
transactions, record it, and advance the running totals. -/
def pack_bundles (maxTx maxCU : Nat) : List Bundle → PackState → PackState
  | [], s => s
  | b :: rest, s =>
    if s.all_transactions.length + b.transactions.length > maxTx then
      pack_bundles maxTx maxCU rest s
    else if s.total_compute_units + estimate_bundle_compute_units b > maxCU then
      pack_bundles maxTx maxCU rest s
    else
      pack_bundles maxTx maxCU rest
        { all_transactions := s.all_transactions ++ b.transactions,
          included_bundles := s.included_bundles ++ [b],
          total_tips := s.total_tips + b.tip_lamports,
          total_compute_units :=
            s.total_compute_units + estimate_bundle_compute_units b }

/-- `BlockAssembler::assemble_block`: pack the winners under the template's
two limits, then build the block.  `timestamp` is the wall clock read
inside the call and `fresh_hash` the value of `Hash::new_unique()` the call
stamps as `blockhash` (the source leaves the hash uncomputed here). -/
def BlockAssembler.assemble_block (template : BlockTemplate)
    (winning_bundles : List Bundle) (timestamp : Nat) (fresh_hash : Hash) : Block :=
  let s := pack_bundles template.max_transactions template.max_compute_units
    winning_bundles ⟨[], [], 0, 0⟩
  { slot := template.slot
    parent_hash := template.parent_hash
    blockhash := fresh_hash
    transactions := s.all_transactions
    bundles := s.included_bundles
    timestamp := timestamp
    leader_pubkey := template.leader_pubkey
    total_fees := s.all_transactions.length * 5000
    total_tips := s.total_tips }

/-- The packing loop preserves its limits and aggregate invariants. -/
theorem pack_bundles_invariant (maxTx maxCU : Nat) (bs : List Bundle) :
    ∀ s : PackState,
    s.all_transactions.length ≤ maxTx →
    s.total_compute_units ≤ maxCU →
    s.total_compute_units = s.all_transactions.length * 5000 →
    s.total_tips = (s.included_bundles.map Bundle.tip_lamports).sum →
    s.all_transactions = (s.included_bundles.map Bundle.transactions).flatten →
    (pack_bundles maxTx maxCU bs s).all_transactions.length ≤ maxTx ∧
    (pack_bundles maxTx maxCU bs s).total_compute_units ≤ maxCU ∧
    (pack_bundles maxTx maxCU bs s).total_compute_units =
      (pack_bundles maxTx maxCU bs s).all_transactions.length * 5000 ∧
    (pack_bundles maxTx maxCU bs s).total_tips =
      ((pack_bundles maxTx maxCU bs s).included_bundles.map Bundle.tip_lamports).sum ∧
    (pack_bundles maxTx maxCU bs s).all_transactions =
      ((pack_bundles maxTx maxCU bs s).included_bundles.map Bundle.transactions).flatten := by
  induction bs with
  | nil => intro s h1 h2 h3 h4 h5; exact ⟨h1, h2, h3, h4, h5⟩
  | cons b rest ih =>
    intro s h1 h2 h3 h4 h5
    by_cases htx : s.all_transactions.length + b.transactions.length > maxTx
    · rw [show pack_bundles maxTx maxCU (b :: rest) s = pack_bundles maxTx maxCU rest s by
        simp [pack_bundles, htx]]
      exact ih s h1 h2 h3 h4 h5
    · by_cases hcu : s.total_compute_units + estimate_bundle_compute_units b > maxCU
      · rw [show pack_bundles maxTx maxCU (b :: rest) s = pack_bundles maxTx maxCU rest s by
          simp [pack_bundles, htx, hcu]]
        exact ih s h1 h2 h3 h4 h5
      · rw [show pack_bundles maxTx maxCU (b :: rest) s = pack_bundles maxTx maxCU rest
            { all_transactions := s.all_transactions ++ b.transactions,
              included_bundles := s.included_bundles ++ [b],
              total_tips := s.total_tips + b.tip_lamports,
              total_compute_units :=
                s.total_compute_units + estimate_bundle_compute_units b } by
          simp [pack_bundles, htx, hcu]]
        refine ih _ ?_ ?_ ?_ ?_ ?_
        · simpa using Nat.le_of_not_lt htx
        · exact Nat.le_of_not_lt hcu
        · simp [estimate_bundle_compute_units, h3]
          ring
        · simp [h4]
        · simp [h5]

/-- If the head bundle would exceed either limit, the packing loop skips it
and continues with the remaining bundles unchanged. -/
theorem pack_bundles_skip (maxTx maxCU : Nat) (b : Bundle) (rest : List Bundle)
    (s : PackState)
    (h : maxTx < s.all_transactions.length + b.transactions.length ∨
      maxCU < s.total_compute_units + estimate_bundle_compute_units b) :
    pack_bundles maxTx maxCU (b :: rest) s = pack_bundles maxTx maxCU rest s := by
  rcases h with h | h
  · simp [pack_bundles, h]
  · by_cases htx : s.all_transactions.length + b.transactions.length > maxTx
    · simp [pack_bundles, htx]
    · simp [pack_bundles, htx, h]

/-! ## Theorems for claim C2 -/

/-- C2: every block produced by `BlockAssembler::assemble_block` holds at
most `max_transactions` transactions and at most `max_compute_units`
estimated compute units (5000 per transaction); its `total_tips` is the sum
of `tip_lamports` over exactly the included bundles (whose transactions,
concatenated in order, are the block's transactions); and a candidate
bundle that would exceed either limit is skipped while the walk continues
with the later bundles. -/
theorem assemble_block_limits_c2 (template : BlockTemplate)
    (winning_bundles : List Bundle) (timestamp : Nat) (fresh_hash : Hash)
    (b : Bundle) (rest : List Bundle) (s : PackState) :
    ((BlockAssembler.assemble_block template winning_bundles timestamp
        fresh_hash).transactions.length ≤ template.max_transactions) ∧
    ((BlockAssembler.assemble_block template winning_bundles timestamp
        fresh_hash).transactions.length * 5000 ≤ template.max_compute_units) ∧
    ((BlockAssembler.assemble_block template winning_bundles timestamp
        fresh_hash).total_tips =
      (((BlockAssembler.assemble_block template winning_bundles timestamp
        fresh_hash).bundles).map Bundle.tip_lamports).sum) ∧
    ((BlockAssembler.assemble_block template winning_bundles timestamp
        fresh_hash).transactions =
      (((BlockAssembler.assemble_block template winning_bundles timestamp
        fresh_hash).bundles).map Bundle.transactions).flatten) ∧
    (template.max_transactions < s.all_transactions.length + b.transactions.length ∨
      template.max_compute_units <
        s.total_compute_units + estimate_bundle_compute_units b →
      pack_bundles template.max_transactions template.max_compute_units
          (b :: rest) s =
        pack_bundles template.max_transactions template.max_compute_units rest s) := by
  have hinv := pack_bundles_invariant template.max_transactions
    template.max_compute_units winning_bundles ⟨[], [], 0, 0⟩
    (by simp) (by simp) (by simp) (by simp) (by simp)
  refine ⟨hinv.1, ?_, hinv.2.2.2.1, hinv.2.2.2.2,
    fun h => pack_bundles_skip _ _ b rest s h⟩
  have := hinv.2.1
  have heq := hinv.2.2.1
  simp only [BlockAssembler.assemble_block]
  omega

/-- Witness for `assemble_block_limits_c2`: scenario S4 of the spec —
limit 5 transactions, winning bundles with 3, 2 and 2 transactions; the
third bundle is skipped by the packer, and the skip hypothesis is
discharged at its concrete packing state. -/
theorem assemble_block_limits_c2_witness :
    pack_bundles 5 100000
        [⟨3, [[3], [4]], 10, 0, "c"⟩] ⟨[[0], [1], [2], [5], [6]], [⟨1, [[0], [1], [2]], 30, 0, "a"⟩, ⟨2, [[5], [6]], 20, 0, "b"⟩], 50, 25000⟩ =
      pack_bundles 5 100000 []
        ⟨[[0], [1], [2], [5], [6]], [⟨1, [[0], [1], [2]], 30, 0, "a"⟩, ⟨2, [[5], [6]], 20, 0, "b"⟩], 50, 25000⟩ :=
  (assemble_block_limits_c2 ⟨0, [], "L", 5, 100000⟩ [] 0 []
    ⟨3, [[3], [4]], 10, 0, "c"⟩ []
    ⟨[[0], [1], [2], [5], [6]], [⟨1, [[0], [1], [2]], 30, 0, "a"⟩, ⟨2, [[5], [6]], 20, 0, "b"⟩], 50, 25000⟩).2.2.2.2
    (by left; decide)

/-! ## SHA-256 (the `sha2` crate as used by `compute_block_hash`) -/

/-- Truncate to a 32-bit word. -/
def w32 (n : Nat) : Nat := n % 4294967296

/-- 32-bit modular addition. -/
def add32 (a b : Nat) : Nat := (a + b) % 4294967296

/-- Right rotation of a 32-bit word by `n` bits. -/
def rotr32 (n x : Nat) : Nat := (x / 2 ^ n + x % 2 ^ n * 2 ^ (32 - n)) % 4294967296

/-- Logical right shift of a 32-bit word by `n` bits. -/
def shr32 (n x : Nat) : Nat := x / 2 ^ n

/-- Bitwise complement of a 32-bit word. -/
def not32 (x : Nat) : Nat := Nat.xor x 4294967295

/-- SHA-256 `Ch(e, f, g)`. -/
def sha2Choose (e f g : Nat) : Nat :=
  Nat.xor (Nat.land e f) (Nat.land (not32 e) g)

/-- SHA-256 `Maj(a, b, c)`. -/
def sha2Major (a b c : Nat) : Nat :=
  Nat.xor (Nat.xor (Nat.land a b) (Nat.land a c)) (Nat.land b c)

/-- SHA-256 `Σ₀`. -/
def sha2S0 (x : Nat) : Nat := Nat.xor (Nat.xor (rotr32 2 x) (rotr32 13 x)) (rotr32 22 x)

/-- SHA-256 `Σ₁`. -/
def sha2S1 (x : Nat) : Nat := Nat.xor (Nat.xor (rotr32 6 x) (rotr32 11 x)) (rotr32 25 x)

/-- SHA-256 `σ₀`. -/
def sha2s0 (x : Nat) : Nat := Nat.xor (Nat.xor (rotr32 7 x) (rotr32 18 x)) (shr32 3 x)

/-- SHA-256 `σ₁`. -/
def sha2s1 (x : Nat) : Nat := Nat.xor (Nat.xor (rotr32 17 x) (rotr32 19 x)) (shr32 10 x)

/-- The 64 SHA-256 round constants (FIPS 180-4, in decimal). -/
def sha2K : List Nat :=
  [1116352408, 1899447441, 3049323471, 3921009573, 961987163,
   1508970993, 2453635748, 2870763221, 3624381080, 310598401,
   607225278, 1426881987, 1925078388, 2162078206, 2614888103,
   3248222580, 3835390401, 4022224774, 264347078, 604807628,
   770255983, 1249150122, 1555081692, 1996064986, 2554220882,
   2821834349, 2952996808, 3210313671, 3336571891, 3584528711,
   113926993, 338241895, 666307205, 773529912, 1294757372,
   1396182291, 1695183700, 1986661051, 2177026350, 2456956037,
   2730485921, 2820302411, 3259730800, 3345764771, 3516065817,
   3600352804, 4094571909, 275423344, 430227734, 506948616,
   659060556, 883997877, 958139571, 1322822218, 1537002063,
   1747873779, 1955562222, 2024104815, 2227730452, 2361852424,
   2428436474, 2756734187, 3204031479, 3329325298]

/-- The SHA-256 initial hash value (FIPS 180-4, in decimal). -/
def sha2H0 : List Nat :=
  [1779033703, 3144134277, 1013904242, 2773480762,
   1359893119, 2600822924, 528734635, 1541459225]

/-- The `k` least-significant bytes of `n`, little-endian
(`u64::to_le_bytes` is `natLEBytes 8`). -/
def natLEBytes : Nat → Nat → List Nat
  | 0, _ => []
  | k + 1, n => n % 256 :: natLEBytes k (n / 256)

/-- The `k` least-significant bytes of `n`, big-endian. -/
def natBEBytes (k n : Nat) : List Nat := (natLEBytes k n).reverse

/-- Read a big-endian byte string as a number. -/
def beWord (bytes : List Nat) : Nat := bytes.foldl (fun acc b => acc * 256 + b) 0

/-- SHA-256 message padding: append `0x80`, zeros to 56 mod 64, then the
bit length as 8 big-endian bytes. -/
def sha256Pad (msg : List Nat) : List Nat :=
  msg ++ [128] ++ List.replicate ((119 - msg.length % 64) % 64) 0 ++
    natBEBytes 8 (msg.length * 8)

/-- Split a padded message into 64-byte blocks. -/
def sha256Blocks (padded : List Nat) : List (List Nat) :=
  (List.range (padded.length / 64)).map (fun i => (padded.drop (64 * i)).take 64)

/-- The 64-entry SHA-256 message schedule of one block. -/
def sha256Schedule (blk : List Nat) : List Nat :=
  let w0 := (List.range 16).map (fun i => beWord ((blk.drop (4 * i)).take 4))
  (List.range 48).foldl (fun w t =>
    let i := t + 16
    w ++ [add32 (add32 (sha2s1 (w.getD (i - 2) 0)) (w.getD (i - 7) 0))
      (add32 (sha2s0 (w.getD (i - 15) 0)) (w.getD (i - 16) 0))]) w0

/-- The SHA-256 compression function on one 64-byte block. -/
def sha256Compress (h : List Nat) (blk : List Nat) : List Nat :=
  let ws := sha256Schedule blk
  let st := (List.range 64).foldl (fun st t =>
    match st with
    | [a, b, c, d, e, f, g, hh] =>
      let t1 := add32 (add32 (add32 hh (sha2S1 e))
        (add32 (sha2Choose e f g) (sha2K.getD t 0))) (ws.getD t 0)
      let t2 := add32 (sha2S0 a) (sha2Major a b c)
      [add32 t1 t2, a, b, c, add32 d t1, e, f, g]
    | other => other) h
  List.zipWith add32 h st

/-- SHA-256 of a byte string, as its 32-byte digest. -/
def sha256 (msg : List Nat) : List Nat :=
  (((sha256Blocks (sha256Pad msg)).foldl sha256Compress sha2H0).map
    (natBEBytes 4)).flatten

/-! ## Standalone `assemble_block` (`block_assembler.rs`, free functions) -/

/-- The ASCII code of the lowercase hex digit of `n % 16`. -/
def hexDigitChar (n : Nat) : Nat := if n < 10 then 48 + n else 87 + n

/-- `n` as `width` lowercase hex digits (ASCII codes), big-endian. -/
def natHexPad (width n : Nat) : List Nat :=
  (List.range width).map (fun i => hexDigitChar (n / 16 ^ (width - 1 - i) % 16))

/-- `Uuid::to_string` of a 128-bit id, as its byte string: 32 lowercase hex
digits in five hyphen-separated groups of 8-4-4-4-12. -/
def uuid_string_bytes (id : Nat) : List Nat :=
  let d := natHexPad 32 id
  d.take 8 ++ [45] ++ (d.drop 8).take 4 ++ [45] ++ (d.drop 12).take 4 ++
    [45] ++ (d.drop 16).take 4 ++ [45] ++ d.drop 20

/-- `hex::encode` of a byte string, as the byte string of the hex text. -/
def hex_encode (bs : List Nat) : List Nat :=
  (bs.map (fun b => [hexDigitChar (b / 16), hexDigitChar (b % 16)])).flatten

/-- The byte string hashed by `compute_block_hash`: the timestamp as 8
little-endian bytes, then each transaction's serialization in order, then
each bundle id's string bytes in order. -/
def block_hash_input (transactions : List Tx) (bundle_ids : List (List Nat))
    (timestamp : Nat) : List Nat :=
  natLEBytes 8 timestamp ++ transactions.flatten ++ bundle_ids.flatten

/-- `compute_block_hash`: the SHA-256 digest of `block_hash_input`. -/
def compute_block_hash (transactions : List Tx) (bundle_ids : List (List Nat))
    (timestamp : Nat) : Hash :=
  sha256 (block_hash_input transactions bundle_ids timestamp)

/-- `block_assembler.rs`: `BlockSummary`.  `bundle_ids` and `block_hash`
are byte strings of the id texts and the hex digest text. -/
structure BlockSummary where
  block_id : String
  total_fees : Nat
  bundle_ids : List (List Nat)
  transaction_count : Nat
  timestamp : Nat
  block_hash : List Nat
deriving DecidableEq, Repr

/-- The standalone `assemble_block` free function: aggregate every
transaction of every winning bundle, accumulate `total_fees` from the tips,
compute the deterministic block hash, and emit the block (slot, parent and
leader left default) plus its JSON summary.  `timestamp` is the wall clock
read inside the call and `block_id` the generated UUID text. -/
def assemble_block (winning_bundles : List Bundle) (timestamp : Nat)
    (block_id : String) : Block × BlockSummary :=
  let all_transactions := (winning_bundles.map Bundle.transactions).flatten
  let total_fees := (winning_bundles.map Bundle.tip_lamports).sum
  let bundle_ids := winning_bundles.map (fun b => uuid_string_bytes b.id)
  let block_hash := compute_block_hash all_transactions bundle_ids timestamp
  ({ slot := 0,
     parent_hash := List.replicate 32 0,
     blockhash := block_hash,
     transactions := all_transactions,
     bundles := winning_bundles,
     timestamp := timestamp,
     leader_pubkey := "",
     total_fees := total_fees,
     total_tips := total_fees },
   { block_id := block_id,
     total_fees := total_fees,
     bundle_ids := bundle_ids,
     transaction_count := all_transactions.length,
     timestamp := timestamp,
     block_hash := hex_encode block_hash })

/-- `assemble_block_with_params`: the standalone assembly with slot, parent
hash and leader overridden afterwards. -/
def assemble_block_with_params (winning_bundles : List Bundle) (slot : Nat)
    (parent_hash : Hash) (leader_pubkey : String) (timestamp : Nat)
    (block_id : String) : Block × BlockSummary :=
  let r := assemble_block winning_bundles timestamp block_id
  ({ r.1 with
      slot := slot
      parent_hash := parent_hash
      leader_pubkey := leader_pubkey }, r.2)

/-- A `k`-byte little-endian encoding determines the encoded value below
`256 ^ k`, whatever follows it. -/
theorem natLEBytes_append_inj :
    ∀ (k n m : Nat) (r₁ r₂ : List Nat), n < 256 ^ k → m < 256 ^ k →
      natLEBytes k n ++ r₁ = natLEBytes k m ++ r₂ → n = m := by
  intro k
  induction k with
  | zero =>
    intro n m r₁ r₂ hn hm _
    simp [Nat.pow_zero] at hn hm
    omega
  | succ k ih =>
    intro n m r₁ r₂ hn hm heq
    simp only [natLEBytes, List.cons_append, List.cons.injEq] at heq
    have hdiv : n / 256 = m / 256 := by
      refine ih (n / 256) (m / 256) r₁ r₂ ?_ ?_ heq.2
      · exact Nat.div_lt_of_lt_mul (by
          calc n < 256 ^ (k + 1) := hn
          _ = 256 * 256 ^ k := by ring)
      · exact Nat.div_lt_of_lt_mul (by
          calc m < 256 ^ (k + 1) := hm
          _ = 256 * 256 ^ k := by ring)
    have hm256 := heq.1
    omega

/-! ## Theorems for claim C6 -/

/-- A concrete template used by the C6 counterexample. -/
def tplC6 : BlockTemplate := ⟨1, [], "L", 10, 50000⟩

/-- The block `BlockAssembler::assemble_block` builds from `tplC6` and no
bundles at timestamp 1, with `Hash::new_unique()` yielding all zero bytes. -/
def blkC6 : Block := BlockAssembler.assemble_block tplC6 [] 1 (List.replicate 32 0)

set_option maxRecDepth 100000 in
/-- C6 as stated is false: `BlockAssembler::assemble_block` stamps the
block with `Hash::new_unique()`, not with the SHA-256 digest of its
timestamp, transactions and bundle ids — exhibited on the concrete block
`blkC6`. -/
theorem blockhash_scheme_c6_counterexample :
    blkC6.blockhash ≠
      compute_block_hash blkC6.transactions
        (blkC6.bundles.map (fun b => uuid_string_bytes b.id)) blkC6.timestamp := by
  decide

/-- C6 amended: every block produced by the standalone `assemble_block`
has `blockhash` equal to the SHA-256 digest of the timestamp as 8
little-endian bytes, then each included transaction's serialization in
block order, then each included bundle's id string bytes in inclusion
order; the digest is a deterministic function of (timestamp, transactions,
bundle-id sequence); and two assemblies of the same bundles at distinct
timestamps (below `2 ^ 64`) hash distinct preimages.
(`BlockAssembler::assemble_block` instead stamps a fresh placeholder
hash.) -/
theorem blockhash_scheme_c6 (winning w₂ : List Bundle) (ts ts₂ : Nat)
    (bid bid₂ : String) :
    ((assemble_block winning ts bid).1.blockhash =
      sha256 (natLEBytes 8 ts ++
        ((assemble_block winning ts bid).1.transactions).flatten ++
        (((assemble_block winning ts bid).1.bundles).map
          (fun b => uuid_string_bytes b.id)).flatten)) ∧
    (winning.map Bundle.transactions = w₂.map Bundle.transactions →
      winning.map Bundle.id = w₂.map Bundle.id →
      (assemble_block winning ts bid).1.blockhash =
        (assemble_block w₂ ts bid₂).1.blockhash) ∧
    (ts ≠ ts₂ → ts < 2 ^ 64 → ts₂ < 2 ^ 64 →
      block_hash_input ((winning.map Bundle.transactions).flatten)
          (winning.map (fun b => uuid_string_bytes b.id)) ts ≠
        block_hash_input ((winning.map Bundle.transactions).flatten)
          (winning.map (fun b => uuid_string_bytes b.id)) ts₂) := by
  refine ⟨rfl, fun htx hid => ?_, fun hne h₁ h₂ heq => ?_⟩
  · have hids : winning.map (fun b => uuid_string_bytes b.id) =
        w₂.map (fun b => uuid_string_bytes b.id) := by
      have h1 : winning.map (fun b => uuid_string_bytes b.id) =
          (winning.map Bundle.id).map uuid_string_bytes := by
        simp [List.map_map, Function.comp_def]
      have h2 : w₂.map (fun b => uuid_string_bytes b.id) =
          (w₂.map Bundle.id).map uuid_string_bytes := by
        simp [List.map_map, Function.comp_def]
      rw [h1, h2, hid]
    simp only [assemble_block, compute_block_hash, block_hash_input, htx, hids]
  · exact hne (natLEBytes_append_inj 8 ts ts₂ _ _
      (by simpa using h₁) (by simpa using h₂)
      (by simpa [block_hash_input] using heq))

/-- Witness for `blockhash_scheme_c6`: the empty bundle list hashed at
timestamps 1 and 2 yields distinct hash preimages. -/
theorem blockhash_scheme_c6_witness :
    block_hash_input [] [] 1 ≠ block_hash_input [] [] 2 :=
  (blockhash_scheme_c6 [] [] 1 2 "x" "y").2.2 (by decide) (by norm_num)
    (by norm_num)

/-! ## Theorems for claim C7 -/

/-- C7 as stated is false: the standalone `assemble_block` entry point sets
`total_fees` to the sum of the tips, not to 5000 lamports per transaction —
exhibited on one bundle with one transaction and a tip of 1000000. -/
theorem total_fees_c7_counterexample :
    ¬ ((assemble_block [⟨7, [[0]], 1000000, 0, "s"⟩] 1 "bid").1.total_fees =
      (assemble_block [⟨7, [[0]], 1000000, 0, "s"⟩] 1 "bid").1.transactions.length
        * 5000) := by
  decide

/-- C7 amended: `BlockAssembler::assemble_block` derives `total_fees` as
5000 lamports per included transaction, but the standalone `assemble_block`
(and `assemble_block_with_params`, which delegates to it) instead sets
`total_fees` to the sum of the winning bundles' tips, equal to
`total_tips`. -/
theorem total_fees_c7 (template : BlockTemplate) (winning : List Bundle)
    (ts : Nat) (fh : Hash) (slot : Nat) (ph : Hash) (leader : String)
    (bid : String) :
    ((BlockAssembler.assemble_block template winning ts fh).total_fees =
      (BlockAssembler.assemble_block template winning ts fh).transactions.length
        * 5000) ∧
    ((assemble_block winning ts bid).1.total_fees =
      (winning.map Bundle.tip_lamports).sum) ∧
    ((assemble_block winning ts bid).1.total_fees =
      (assemble_block winning ts bid).1.total_tips) ∧
    ((assemble_block_with_params winning slot ph leader ts bid).1.total_fees =
      (winning.map Bundle.tip_lamports).sum) :=
  ⟨rfl, rfl, rfl, rfl⟩

/-! ## Simulation admission filter (`simulator.rs`) -/

/-- `simulator.rs`: `SimulationResult`.  Pubkeys are opaque strings. -/
structure SimulationResult where
  success : Bool
  logs : List String
  accounts_accessed : List String
  compute_units_consumed : Nat
  error : Option String
deriving DecidableEq, Repr

/-- An RPC simulation client (`SolanaRpcClient::simulate_transaction`): a
function from a transaction to an `anyhow::Result<SimulationResult>`, the
error case carrying the error text. -/
abbrev RpcSimulate := Tx → Except String SimulationResult

/-- `TransactionSimulator::simulate_bundle`: simulate every transaction of
the bundle sequentially, in the bundle's intrinsic order, collecting the
results; an RPC error propagates immediately. -/
def simulate_bundle (rpc : RpcSimulate) : List Tx → Except String (List SimulationResult)
  | [] => .ok []
  | tx :: rest => do
    let r ← rpc tx
    let rs ← simulate_bundle rpc rest
    return r :: rs

/-- The check loop of `TransactionSimulator::validate_bundle`: the first
result whose `success` flag is false, if any. -/
def first_failure : List SimulationResult → Option SimulationResult
  | [] => none
  | r :: rs => if r.success then first_failure rs else some r

/-- `TransactionSimulator::validate_bundle`: structural check, then
sequential simulation, succeeding iff every result reports success; a
failed result surfaces `SimulationFailed` with that result's error text
(or "Unknown simulation error" when it carries none). -/
def TransactionSimulator.validate_bundle (rpc : RpcSimulate) (b : Bundle) :
    Except BundleError Bool :=
  match b.validate with
  | .error e => .error e
  | .ok _ =>
    match simulate_bundle rpc b.transactions with
    | .error e => .error (.SimulationFailed e)
    | .ok results =>
      match first_failure results with
      | some r => .error (.SimulationFailed (r.error.getD "Unknown simulation error"))
      | none => .ok true

/-- `simulate_bundle` returns `Ok(results)` exactly when the RPC simulates
each transaction successfully, results aligned with transactions. -/
theorem simulate_bundle_ok_iff (rpc : RpcSimulate) :
    ∀ (txs : List Tx) (results : List SimulationResult),
      simulate_bundle rpc txs = .ok results ↔
        List.Forall₂ (fun tx r => rpc tx = .ok r) txs results := by
  intro txs
  induction txs with
  | nil =>
    intro results
    constructor
    · intro h
      cases h
      exact List.Forall₂.nil
    · intro h
      cases h
      rfl
  | cons tx rest ih =>
    intro results
    constructor
    · intro h
      simp only [simulate_bundle, bind, Except.bind] at h
      cases hr : rpc tx with
      | error e => rw [hr] at h; exact absurd h (by simp)
      | ok r =>
        rw [hr] at h
        cases hrs : simulate_bundle rpc rest with
        | error e => rw [hrs] at h; exact absurd h (by simp)
        | ok rs =>
          rw [hrs] at h
          simp only [pure, Except.pure, Except.ok.injEq] at h
          subst h
          exact List.Forall₂.cons hr ((ih rs).mp hrs)
    · intro h
      cases h with
      | cons hr hrest =>
        simp only [simulate_bundle, bind, Except.bind, hr, (ih _).mpr hrest,
          pure, Except.pure]

/-- `first_failure` is `none` exactly when every result succeeds. -/
theorem first_failure_eq_none_iff :
    ∀ results : List SimulationResult,
      first_failure results = none ↔ ∀ r ∈ results, r.success = true := by
  intro results
  induction results with
  | nil => simp [first_failure]
  | cons r rs ih =>
    by_cases hs : r.success
    · simp [first_failure, hs, ih]
    · simp [first_failure, hs]

/-- `first_failure` of a list whose prefix succeeds and whose next entry
fails is that entry. -/
theorem first_failure_append (fr : SimulationResult) (post : List SimulationResult) :
    ∀ pre : List SimulationResult, (∀ r ∈ pre, r.success = true) →
      fr.success = false → first_failure (pre ++ fr :: post) = some fr := by
  intro pre
  induction pre with
  | nil => intro _ hf; simp [first_failure, hf]
  | cons p ps ih =>
    intro hpre hf
    have hp : p.success = true := hpre p (by simp)
    simp only [List.cons_append, first_failure, hp, if_true]
    exact ih (fun r hr => hpre r (by simp [hr])) hf

/-- Each element on the left of a `Forall₂` is related to some element on
the right. -/
theorem forall₂_mem_left {α β : Type} {R : α → β → Prop} :
    ∀ {l₁ : List α} {l₂ : List β}, List.Forall₂ R l₁ l₂ →
      ∀ a ∈ l₁, ∃ b ∈ l₂, R a b := by
  intro l₁ l₂ h
  induction h with
  | nil => intro a ha; exact absurd ha (by simp)
  | cons hr _ ih =>
    intro a ha
    cases List.mem_cons.mp ha with
    | inl he =>
      subst he
      exact ⟨_, by simp, hr⟩
    | inr hm =>
      obtain ⟨b, hb, hrb⟩ := ih a hm
      exact ⟨b, by simp [hb], hrb⟩

/-! ## Theorems for claim C4 -/

/-- The structural check passes exactly on bundles with 1 to 5
transactions. -/
theorem bundle_validate_ok_iff (b : Bundle) :
    b.validate = .ok () ↔
      1 ≤ b.transactions.length ∧ b.transactions.length ≤ 5 := by
  unfold Bundle.validate
  have hemp : b.transactions.isEmpty = true ↔ b.transactions.length = 0 := by
    cases b.transactions with
    | nil => simp
    | cons x xs => simp
  by_cases he : b.transactions.isEmpty = true
  · rw [if_pos he]
    have h0 := hemp.mp he
    constructor
    · intro h; exact absurd h (by simp)
    · intro h; omega
  · rw [if_neg he]
    have h0 : b.transactions.length ≠ 0 := fun h => he (hemp.mpr h)
    by_cases hl : b.transactions.length > 5
    · rw [if_pos hl]
      constructor
      · intro h; exact absurd h (by simp)
      · intro h; omega
    · rw [if_neg hl]
      constructor
      · intro _; omega
      · intro _; rfl

/-- If the RPC simulates every transaction of the list to a successful
result, `simulate_bundle` returns a list of successful results. -/
theorem simulate_bundle_total (rpc : RpcSimulate) :
    ∀ txs : List Tx,
      (∀ tx ∈ txs, ∃ r, rpc tx = .ok r ∧ r.success = true) →
      ∃ results, simulate_bundle rpc txs = .ok results ∧
        ∀ r ∈ results, r.success = true := by
  intro txs
  induction txs with
  | nil => exact fun _ => ⟨[], rfl, by simp⟩
  | cons tx rest ih =>
    intro hsim
    obtain ⟨r, hr, hsucc⟩ := hsim tx (by simp)
    obtain ⟨rs, hrs, hall⟩ := ih (fun t ht => hsim t (by simp [ht]))
    refine ⟨r :: rs, ?_, ?_⟩
    · simp only [simulate_bundle, bind, Except.bind, hr, hrs, pure, Except.pure]
    · intro x hx
      cases List.mem_cons.mp hx with
      | inl h => subst h; exact hsucc
      | inr h => exact hall x h

/-- C4: `validate_bundle` succeeds exactly when the bundle passes the
structural check (1 to 5 transactions) and every transaction, simulated
sequentially in the bundle's intrinsic order, yields a result reporting
success; and when the structural check passes, the simulations return
results, and the first failing result carries an error text, the call
returns `SimulationFailed` carrying exactly that text. -/
theorem validate_bundle_c4 (rpc : RpcSimulate) (b : Bundle) :
    (TransactionSimulator.validate_bundle rpc b = .ok true ↔
      (1 ≤ b.transactions.length ∧ b.transactions.length ≤ 5 ∧
        ∀ tx ∈ b.transactions, ∃ r, rpc tx = .ok r ∧ r.success = true)) ∧
    (∀ (pre post : List SimulationResult) (fr : SimulationResult) (msg : String),
      b.validate = .ok () →
      simulate_bundle rpc b.transactions = .ok (pre ++ fr :: post) →
      (∀ r ∈ pre, r.success = true) →
      fr.success = false →
      fr.error = some msg →
      TransactionSimulator.validate_bundle rpc b =
        .error (.SimulationFailed msg)) := by
  constructor
  · constructor
    · intro h
      unfold TransactionSimulator.validate_bundle at h
      split at h
      · exact absurd h (by simp)
      · rename_i u hv
        split at h
        · exact absurd h (by simp)
        · rename_i results hs
          split at h
          · exact absurd h (by simp)
          · rename_i hf
            cases u
            have hlen := (bundle_validate_ok_iff b).mp hv
            have hall := (first_failure_eq_none_iff results).mp hf
            have hfa := (simulate_bundle_ok_iff rpc b.transactions results).mp hs
            refine ⟨hlen.1, hlen.2, fun tx htx => ?_⟩
            obtain ⟨r, hmem, hr⟩ := forall₂_mem_left hfa tx htx
            exact ⟨r, hr, hall r hmem⟩
    · rintro ⟨h1, h5, hsim⟩
      have hv : b.validate = .ok () := (bundle_validate_ok_iff b).mpr ⟨h1, h5⟩
      obtain ⟨results, hres, hall⟩ := simulate_bundle_total rpc b.transactions hsim
      have hff : first_failure results = none :=
        (first_failure_eq_none_iff results).mpr hall
      unfold TransactionSimulator.validate_bundle
      simp only [hv, hres, hff]
  · intro pre post fr msg hv hs hpre hf herr
    have hffa := first_failure_append fr post pre hpre hf
    unfold TransactionSimulator.validate_bundle
    simp only [hv, hs, hffa, herr, Option.getD_some]

/-- An RPC client whose simulations always succeed, for witnesses. -/
def rpcAllOk : RpcSimulate := fun _ => .ok ⟨true, [], [], 5000, none⟩

/-- Witness for `validate_bundle_c4`: a one-transaction bundle whose
simulation succeeds validates to `Ok(true)`. -/
theorem validate_bundle_c4_witness :
    TransactionSimulator.validate_bundle rpcAllOk ⟨1, [[1]], 0, 0, "s"⟩ = .ok true :=
  (validate_bundle_c4 rpcAllOk ⟨1, [[1]], 0, 0, "s"⟩).1.mpr
    ⟨by decide, by decide, fun tx _ => ⟨⟨true, [], [], 5000, none⟩, rfl, rfl⟩⟩

/-! ## Bundle pool (`transaction_pool.rs`) -/

/-- `transaction_pool.rs`: `PoolEvent`. -/
inductive PoolEvent where
  | BundleAdded : Nat → PoolEvent
  | BundleRemoved : Nat → PoolEvent
  | BundleUpdated : Nat → PoolEvent
deriving DecidableEq, Repr

/-- `transaction_pool.rs`: `PoolError`. -/
inductive PoolError where
  | PoolFull : PoolError
  | InvalidBundle : String → PoolError
  | BundleNotFound : PoolError
deriving DecidableEq, Repr

/-- The pool state: the `HashMap<Uuid, Bundle>` as an association list with
unique keys, plus the insertion-ordered pending queue of ids. -/
structure TransactionPool where
  bundles : List (Nat × Bundle)
  pending_queue : List Nat
  max_pool_size : Nat
deriving DecidableEq, Repr

/-- `HashMap::insert`: replace the entry of an existing key in place, else
append a new entry. -/
def insert_assoc : List (Nat × Bundle) → Nat → Bundle → List (Nat × Bundle)
  | [], k, v => [(k, v)]
  | (k₀, v₀) :: rest, k, v =>
    if k₀ = k then (k, v) :: rest else (k₀, v₀) :: insert_assoc rest k v

/-- `HashMap::get`. -/
def lookup_assoc : List (Nat × Bundle) → Nat → Option Bundle
  | [], _ => none
  | (k₀, v₀) :: rest, k => if k₀ = k then some v₀ else lookup_assoc rest k

/-- `HashMap::remove` (keys unique, so removing the first entry of the key
is removing its only entry). -/
def remove_assoc : List (Nat × Bundle) → Nat → List (Nat × Bundle)
  | [], _ => []
  | (k₀, v₀) :: rest, k =>
    if k₀ = k then rest else (k₀, v₀) :: remove_assoc rest k

/-- `TransactionPool::add_bundle`: fail with `PoolFull` when the map
already holds `max_pool_size` bundles, then with `InvalidBundle` when the
structural check fails; otherwise insert the bundle, append its id to the
pending queue, and publish `BundleAdded`.  Returns the `Result`, the
updated pool, and the published events. -/
def TransactionPool.add_bundle (pool : TransactionPool) (b : Bundle) :
    Except PoolError Unit × TransactionPool × List PoolEvent :=
  if pool.bundles.length ≥ pool.max_pool_size then
    (.error .PoolFull, pool, [])
  else
    match b.validate with
    | .error e => (.error (.InvalidBundle e.toMessage), pool, [])
    | .ok _ =>
      (.ok (),
       { pool with
          bundles := insert_assoc pool.bundles b.id b
          pending_queue := pool.pending_queue ++ [b.id] },
       [.BundleAdded b.id])

/-- `TransactionPool::remove_bundle`: remove the bundle of the id if
present, drop the id from the pending queue, and publish `BundleRemoved`;
absent ids change nothing and publish nothing. -/
def TransactionPool.remove_bundle (pool : TransactionPool) (id : Nat) :
    Option Bundle × TransactionPool × List PoolEvent :=
  match lookup_assoc pool.bundles id with
  | some b =>
    (some b,
     { pool with
        bundles := remove_assoc pool.bundles id
        pending_queue := pool.pending_queue.filter (fun x => x ≠ id) },
     [.BundleRemoved id])
  | none => (none, pool, [])

/-- `TransactionPool::clear`: empty both the map and the queue; no event is
published. -/
def TransactionPool.clear (pool : TransactionPool) :
    TransactionPool × List PoolEvent :=
  ({ pool with bundles := [], pending_queue := [] }, [])

/-- Inserting into the association map grows it by at most one entry. -/
theorem insert_assoc_length_le (k : Nat) (v : Bundle) :
    ∀ m : List (Nat × Bundle),
      (insert_assoc m k v).length ≤ m.length + 1 := by
  intro m
  induction m with
  | nil => simp [insert_assoc]
  | cons p rest ih =>
    by_cases hk : p.1 = k
    · simp [insert_assoc, hk]
    · simp only [insert_assoc, hk, if_false, List.length_cons]
      omega

/-! ## Theorems for claim C5 -/

/-- C5: `add_bundle` returns `PoolFull` when the pool already holds
`max_pool_size` bundles and `InvalidBundle` when the pool has room but the
structural check fails, in both cases leaving the pool unchanged and
publishing nothing; on success it inserts the bundle into the map, appends
its id to the pending queue, and publishes exactly `Added(id)`; and the
pool size never exceeds `max_pool_size`. -/
theorem pool_add_bundle_c5 (pool : TransactionPool) (b : Bundle) :
    (pool.bundles.length ≥ pool.max_pool_size →
      pool.add_bundle b = (.error .PoolFull, pool, [])) ∧
    (∀ e, pool.bundles.length < pool.max_pool_size → b.validate = .error e →
      pool.add_bundle b = (.error (.InvalidBundle e.toMessage), pool, [])) ∧
    (pool.bundles.length < pool.max_pool_size → b.validate = .ok () →
      pool.add_bundle b =
        (.ok (),
         { pool with
            bundles := insert_assoc pool.bundles b.id b
            pending_queue := pool.pending_queue ++ [b.id] },
         [.BundleAdded b.id])) ∧
    (pool.bundles.length ≤ pool.max_pool_size →
      (pool.add_bundle b).2.1.bundles.length ≤ pool.max_pool_size) := by
  refine ⟨fun hfull => ?_, fun e hroom hbad => ?_, fun hroom hok => ?_, fun hle => ?_⟩
  · simp [TransactionPool.add_bundle, hfull]
  · simp [TransactionPool.add_bundle, Nat.not_le.mpr hroom, hbad]
  · simp [TransactionPool.add_bundle, Nat.not_le.mpr hroom, hok]
  · unfold TransactionPool.add_bundle
    by_cases hfull : pool.bundles.length ≥ pool.max_pool_size
    · simp [hfull]
      omega
    · rw [if_neg hfull]
      cases hv : b.validate with
      | error e => simpa using hle
      | ok u =>
        simp only
        have := insert_assoc_length_le b.id b pool.bundles
        have hlt : pool.bundles.length < pool.max_pool_size := Nat.lt_of_not_le hfull
        omega

/-- Witness for `pool_add_bundle_c5`: a full pool rejects a bundle with
`PoolFull`, and an empty pool of capacity 2 accepts it. -/
theorem pool_add_bundle_c5_witness :
    TransactionPool.add_bundle ⟨[(5, ⟨5, [[2]], 9, 0, "q"⟩)], [5], 1⟩ ⟨1, [[1]], 7, 0, "s"⟩ =
      (.error .PoolFull, ⟨[(5, ⟨5, [[2]], 9, 0, "q"⟩)], [5], 1⟩, []) ∧
    TransactionPool.add_bundle ⟨[], [], 2⟩ ⟨1, [[1]], 7, 0, "s"⟩ =
      (.ok (), ⟨[(1, ⟨1, [[1]], 7, 0, "s"⟩)], [1], 2⟩, [.BundleAdded 1]) :=
  ⟨(pool_add_bundle_c5 ⟨[(5, ⟨5, [[2]], 9, 0, "q"⟩)], [5], 1⟩ ⟨1, [[1]], 7, 0, "s"⟩).1
      (by decide),
   (pool_add_bundle_c5 ⟨[], [], 2⟩ ⟨1, [[1]], 7, 0, "s"⟩).2.2.1 (by decide) rfl⟩

/-! ## Theorems for claim C10 -/

/-- C10: pool events are published only by successful mutations — exactly
one `Added(id)` per successful `add_bundle` and exactly one `Removed(id)`
per `remove_bundle` that actually removes a bundle; a failed `add_bundle`,
a `remove_bundle` of an absent id, and `clear` publish nothing; and no pool
operation ever publishes `BundleUpdated`. -/
theorem pool_events_c10 (pool : TransactionPool) (b : Bundle) (id : Nat) :
    ((pool.add_bundle b).1 = .ok () →
      (pool.add_bundle b).2.2 = [.BundleAdded b.id]) ∧
    (∀ e, (pool.add_bundle b).1 = .error e → (pool.add_bundle b).2.2 = []) ∧
    ((pool.remove_bundle id).1.isSome →
      (pool.remove_bundle id).2.2 = [.BundleRemoved id]) ∧
    ((pool.remove_bundle id).1 = none → (pool.remove_bundle id).2.2 = []) ∧
    pool.clear.2 = [] ∧
    (∀ i, PoolEvent.BundleUpdated i ∉ (pool.add_bundle b).2.2 ∧
      PoolEvent.BundleUpdated i ∉ (pool.remove_bundle id).2.2 ∧
      PoolEvent.BundleUpdated i ∉ pool.clear.2) := by
  have hadd : ((pool.add_bundle b).1 = .ok () →
        (pool.add_bundle b).2.2 = [.BundleAdded b.id]) ∧
      (∀ e, (pool.add_bundle b).1 = .error e → (pool.add_bundle b).2.2 = []) := by
    unfold TransactionPool.add_bundle
    by_cases hfull : pool.bundles.length ≥ pool.max_pool_size
    · simp [hfull]
    · rw [if_neg hfull]
      cases hv : b.validate with
      | error e => simp
      | ok u => simp
  have hrem : ((pool.remove_bundle id).1.isSome →
        (pool.remove_bundle id).2.2 = [.BundleRemoved id]) ∧
      ((pool.remove_bundle id).1 = none → (pool.remove_bundle id).2.2 = []) := by
    unfold TransactionPool.remove_bundle
    cases hl : lookup_assoc pool.bundles id with
    | some v => simp
    | none => simp
  refine ⟨hadd.1, hadd.2, hrem.1, hrem.2, rfl, fun i => ⟨?_, ?_, ?_⟩⟩
  · unfold TransactionPool.add_bundle
    by_cases hfull : pool.bundles.length ≥ pool.max_pool_size
    · simp [hfull]
    · rw [if_neg hfull]
      cases hv : b.validate with
      | error e => simp
      | ok u => simp
  · unfold TransactionPool.remove_bundle
    cases hl : lookup_assoc pool.bundles id with
    | some v => simp
    | none => simp
  · simp [TransactionPool.clear]

/-- Witness for `pool_events_c10`: the successful add of the C5 witness
pool publishes exactly one `Added`, and removing an absent id publishes
nothing. -/
theorem pool_events_c10_witness :
    (TransactionPool.add_bundle ⟨[], [], 2⟩ ⟨1, [[1]], 7, 0, "s"⟩).2.2 =
      [.BundleAdded 1] ∧
    (TransactionPool.remove_bundle ⟨[], [], 2⟩ 9).2.2 = [] :=
  ⟨(pool_events_c10 ⟨[], [], 2⟩ ⟨1, [[1]], 7, 0, "s"⟩ 9).1 rfl,
   (pool_events_c10 ⟨[], [], 2⟩ ⟨1, [[1]], 7, 0, "s"⟩ 9).2.2.2.1 rfl⟩

/-! ## Mock validator (`validator.rs`) -/

/-- `block_assembler.rs`: `BlockValidationError`. -/
inductive BlockValidationError where
  | TooManyTransactions : BlockValidationError
  | TooManyComputeUnits : BlockValidationError
  | MissingBundleTransaction : BlockValidationError
  | InvalidStructure : String → BlockValidationError
deriving DecidableEq, Repr

/-- The `thiserror` display strings of `BlockValidationError`. -/
def BlockValidationError.toMessage : BlockValidationError → String
  | .TooManyTransactions => "Block contains too many transactions"
  | .TooManyComputeUnits => "Block exceeds compute unit limit"
  | .MissingBundleTransaction => "Missing transaction from bundle"
  | .InvalidStructure d => "Invalid block structure: " ++ d

/-- `validator.rs`: `BlockSubmissionResult`.  The opaque signature is its
text. -/
inductive BlockSubmissionResult where
  | Accepted : String → BlockSubmissionResult
  | Rejected : String → BlockSubmissionResult
deriving DecidableEq, Repr

/-- `validator.rs`: `MockValidator`.  `failure_rate` is the `f64` fault
rate, modelled as a rational (only its comparisons with 0 and 1 are
observable, and those are exact in IEEE arithmetic for the clamped
range). -/
structure MockValidator where
  validator_id : String
  accepted_blocks : List Block
  rejected_blocks : List (Block × String)
  verification_delay_ms : Nat
  failure_rate : Rat
  max_transactions_per_block : Nat
  max_compute_units_per_block : Nat
deriving DecidableEq, Repr

/-- `MockValidator::validate_block`: the per-validator limit checks, in
source order — transaction count, estimated compute units (5000 per
transaction), every bundle transaction present in the block, nonzero
timestamp. -/
def MockValidator.validate_block (v : MockValidator) (block : Block) :
    Except BlockValidationError Unit :=
  if block.transactions.length > v.max_transactions_per_block then
    .error .TooManyTransactions
  else if block.transactions.length * 5000 > v.max_compute_units_per_block then
    .error .TooManyComputeUnits
  else if block.bundles.any (fun bu =>
      bu.transactions.any (fun tx => ! block.transactions.contains tx)) then
    .error .MissingBundleTransaction
  else if block.timestamp = 0 then
    .error (.InvalidStructure "Invalid timestamp")
  else
    .ok ()

/-- `MockValidator::should_fail`: never fire at rate ≤ 0, always fire at
rate ≥ 1; in between the wall-clock-seeded draw is modelled by the oracle
`rand`. -/
def MockValidator.should_fail (v : MockValidator) (rand : Bool) : Bool :=
  if v.failure_rate ≤ 0 then false
  else if v.failure_rate ≥ 1 then true
  else rand

/-- `MockValidator::submit_block`: validate, optionally inject the random
failure, and return `Accepted` with a fresh signature (recording the block)
or `Rejected` with the reason (recording the pair) — always as an `Ok`
value.  `sig` is the fresh signature drawn on accept. -/
def MockValidator.submit_block (v : MockValidator) (block : Block)
    (rand : Bool) (sig : String) :
    Except String BlockSubmissionResult × MockValidator :=
  match v.validate_block block with
  | .ok _ =>
    if v.should_fail rand then
      (.ok (.Rejected "Random validation failure"),
       { v with rejected_blocks :=
          v.rejected_blocks ++ [(block, "Random validation failure")] })
    else
      (.ok (.Accepted sig),
       { v with accepted_blocks := v.accepted_blocks ++ [block] })
  | .error e =>
    (.ok (.Rejected e.toMessage),
     { v with rejected_blocks := v.rejected_blocks ++ [(block, e.toMessage)] })

/-! ## Theorems for claim C9 -/

/-- C9: `submit_block` always returns a value, never an error; a block
passing the limit checks is accepted with the fresh signature and appended
to the accepted list unless the configured random failure fires, in which
case — as for any limit-check failure — it is rejected with the reason and
the pair is appended to the rejected list; the limit checks pass exactly
when the transaction count, the estimated compute units (5000 per
transaction), the presence of every bundle transaction and a nonzero
timestamp are all in order; and with `failure_rate` 0 the random failure
never fires, so a limit-passing block is always accepted. -/
theorem validator_submit_c9 (v : MockValidator) (block : Block)
    (rand : Bool) (sig : String) :
    (∃ r, (v.submit_block block rand sig).1 = .ok r) ∧
    (v.validate_block block = .ok () → v.should_fail rand = false →
      v.submit_block block rand sig =
        (.ok (.Accepted sig),
         { v with accepted_blocks := v.accepted_blocks ++ [block] })) ∧
    (v.validate_block block = .ok () → v.should_fail rand = true →
      v.submit_block block rand sig =
        (.ok (.Rejected "Random validation failure"),
         { v with rejected_blocks :=
            v.rejected_blocks ++ [(block, "Random validation failure")] })) ∧
    (∀ e, v.validate_block block = .error e →
      v.submit_block block rand sig =
        (.ok (.Rejected e.toMessage),
         { v with rejected_blocks :=
            v.rejected_blocks ++ [(block, e.toMessage)] })) ∧
    (v.validate_block block = .ok () ↔
      (block.transactions.length ≤ v.max_transactions_per_block ∧
        block.transactions.length * 5000 ≤ v.max_compute_units_per_block ∧
        (∀ bu ∈ block.bundles, ∀ tx ∈ bu.transactions,
          tx ∈ block.transactions) ∧
        block.timestamp ≠ 0)) ∧
    (v.failure_rate = 0 → v.should_fail rand = false) := by
  refine ⟨?_, fun hok hsf => ?_, fun hok hsf => ?_, fun e herr => ?_, ?_, fun h0 => ?_⟩
  · unfold MockValidator.submit_block
    cases hvb : v.validate_block block with
    | ok u =>
      by_cases hsf : v.should_fail rand
      · exact ⟨.Rejected "Random validation failure", by simp [hsf]⟩
      · exact ⟨.Accepted sig, by simp [hsf]⟩
    | error e => exact ⟨.Rejected e.toMessage, by simp⟩
  · unfold MockValidator.submit_block
    simp [hok, hsf]
  · unfold MockValidator.submit_block
    simp [hok, hsf]
  · unfold MockValidator.submit_block
    simp [herr]
  · unfold MockValidator.validate_block
    by_cases h1 : block.transactions.length > v.max_transactions_per_block
    · rw [if_pos h1]
      constructor
      · intro h; exact absurd h (by simp)
      · intro h; omega
    · rw [if_neg h1]
      by_cases h2 : block.transactions.length * 5000 > v.max_compute_units_per_block
      · rw [if_pos h2]
        constructor
        · intro h; exact absurd h (by simp)
        · intro h; omega
      · rw [if_neg h2]
        by_cases h3 : block.bundles.any (fun bu =>
            bu.transactions.any (fun tx => ! block.transactions.contains tx)) = true
        · rw [if_pos h3]
          constructor
          · intro h; exact absurd h (by simp)
          · rintro ⟨-, -, hmem, -⟩
            exfalso
            simp only [List.any_eq_true] at h3
            obtain ⟨bu, hbu, tx, htx, hc⟩ := h3
            simp only [List.contains, Bool.not_eq_eq_eq_not, Bool.not_true,
              List.elem_eq_mem, decide_eq_false_iff_not] at hc
            exact hc (hmem bu hbu tx htx)
        · rw [if_neg h3]
          by_cases h4 : block.timestamp = 0
          · rw [if_pos h4]
            constructor
            · intro h; exact absurd h (by simp)
            · intro h; exact absurd h4 h.2.2.2
          · rw [if_neg h4]
            constructor
            · intro _
              refine ⟨by omega, by omega, ?_, h4⟩
              intro bu hbu tx htx
              by_contra hnm
              apply h3
              simp only [List.any_eq_true]
              refine ⟨bu, hbu, tx, htx, ?_⟩
              simp [List.contains, hnm]
            · intro _; rfl
  · unfold MockValidator.should_fail
    rw [if_pos (by rw [h0])]

/-- A concrete limit-passing block used by the C9 witness. -/
def blockW : Block :=
  ⟨1, List.replicate 32 0, List.replicate 32 0, [[1]], [⟨1, [[1]], 5, 0, "s"⟩],
   1000, "L", 5000, 5⟩

/-- A concrete validator with `failure_rate` 0 used by the C9 witness. -/
def validatorW : MockValidator := ⟨"v0", [], [], 100, 0, 100, 1000000⟩

/-- Witness for `validator_submit_c9`: the zero-failure-rate validator
accepts the limit-passing block and records it. -/
theorem validator_submit_c9_witness :
    validatorW.submit_block blockW false "sig" =
      (.ok (.Accepted "sig"),
       { validatorW with accepted_blocks := validatorW.accepted_blocks ++ [blockW] }) :=
  (validator_submit_c9 validatorW blockW false "sig").2.1 rfl
    ((validator_submit_c9 validatorW blockW false "sig").2.2.2.2.2 rfl)

end OpenBlock
